import Mathlib

/-!
Verification of the response-normalization and grading core of the
QCM-from-image application (`src/app.py`).

The Python code is shallowly embedded: decoded JSON values become the
inductive type `JVal`, the normalization helpers (`extract_json`,
`normalize_mcq_payload`, `normalize_correct_indices`), the question-record
construction in the generate handler, the rendering loop's validity check
and the check-answer handler become executable Lean functions over `JVal`
and plain lists.  Python code that can raise an exception is embedded as a
function into `Option`, with `none` marking the raised exception.
-/

namespace QuizAna

/-- A decoded JSON value, the result shape of Python's `json.loads`.
Python decodes JSON numbers to `int`/`float`; only integers are relevant to
this application (floats never pass the `isinstance(value, int)` tests and
behave as unrecognized values), so numbers are embedded as `Int`. -/
inductive JVal where
  | null : JVal
  | bool (b : Bool) : JVal
  | int (n : Int) : JVal
  | str (s : String) : JVal
  | arr (xs : List JVal) : JVal
  | obj (fields : List (String × JVal)) : JVal

/-- Python truthiness (`bool(v)`) of a decoded JSON value: `None`, `False`,
`0`, `""`, `[]` and `{}` are falsy, everything else truthy. -/
def JVal.isTruthy : JVal → Bool
  | .null => false
  | .bool b => b
  | .int n => n != 0
  | .str s => !s.isEmpty
  | .arr xs => !xs.isEmpty
  | .obj fs => !fs.isEmpty

/-- Python `d.get(k)` on a decoded JSON object (association list; decoded
objects have distinct keys, lookup takes the first binding). -/
def py_get (fs : List (String × JVal)) (k : String) : Option JVal :=
  (fs.find? (fun p => p.fst == k)).map Prod.snd

/-- Python `d.get(k, default)`. -/
def py_get_d (fs : List (String × JVal)) (k : String) (d : JVal) : JVal :=
  (py_get fs k).getD d

/-- Python `s.isdigit()` restricted to ASCII: non-empty and all characters
are decimal digits. -/
def py_isdigit (s : String) : Bool :=
  !s.isEmpty && s.data.all Char.isDigit

/-- Python `int(s)` for a string of ASCII decimal digits. -/
def py_int_of_digits (s : String) : Int :=
  Int.ofNat (s.data.foldl (fun n c => 10 * n + (c.toNat - 48)) 0)

/-- `normalize_correct_indices` (src/app.py lines 72-85).  Mirrors the
Python branch structure: a bare `int` gives a one-element list; a list is
traversed in order appending its `int` elements and its digit-string
elements coerced with `int(...)`; a bare digit string gives a one-element
list; everything else gives the empty list.  Note that Python's
`isinstance(value, int)` is also true for `bool`, so decoded JSON booleans
take the integer branch with values `0`/`1`. -/
def normalize_correct_indices : JVal → List Int
  | .int n => [n]
  | .bool b => [if b then 1 else 0]
  | .arr xs =>
      xs.foldl (fun acc item =>
        match item with
        | .int n => acc ++ [n]
        | .bool b => acc ++ [if b then 1 else 0]
        | .str s => if py_isdigit s then acc ++ [py_int_of_digits s] else acc
        | _ => acc) []
  | .str s => if py_isdigit s then [py_int_of_digits s] else []
  | _ => []

/-- The per-element coercion performed by the loop body of
`normalize_correct_indices` on a list input: `int` elements kept, `bool`
elements kept as `0`/`1` (Python bools are ints), digit strings coerced,
everything else dropped. -/
def coerce_item : JVal → Option Int
  | .int n => some n
  | .bool b => some (if b then 1 else 0)
  | .str s => if py_isdigit s then some (py_int_of_digits s) else none
  | _ => none

/-- `normalize_mcq_payload` (src/app.py lines 64-69): a payload whose
`questions` field is a list is returned unchanged; else a payload with a
`question` field is wrapped as a one-element `questions` list; else the
`questions` list is empty. -/
def normalize_mcq_payload (payload : List (String × JVal)) : List (String × JVal) :=
  match py_get payload "questions" with
  | some (.arr _) => payload
  | _ =>
      if (py_get payload "question").isSome then
        [("questions", JVal.arr [JVal.obj payload])]
      else
        [("questions", JVal.arr [])]

/-- `payload.get("questions", [])` as iterated by the generate handler
(src/app.py line 197).  After `normalize_mcq_payload` the field is always a
list (`normalize_questions_is_arr` below), so the catch-all branch is dead
in the composed flow. -/
def questions_of (payload : List (String × JVal)) : List JVal :=
  match py_get payload "questions" with
  | some (.arr xs) => xs
  | _ => []

/-- The user-facing selection state of one question: Python stores `None`,
a single option label (radio) or a list of labels (multiselect) in
`item["choice"]`. -/
inductive Choice where
  | cnone : Choice
  | csingle (s : String) : Choice
  | cmulti (xs : List String) : Choice
  deriving DecidableEq

/-- Python truthiness test `not selected_choice` (src/app.py line 268):
`None`, the empty string and the empty list are falsy. -/
def Choice.isFalsy : Choice → Bool
  | .cnone => true
  | .csingle s => s.isEmpty
  | .cmulti xs => xs.isEmpty

/-- One question record as built by the generate handler (src/app.py lines
196-209).  `options` stays a raw `JVal` because the Python code stores
`item.get("options") or []` unvalidated; the validity check happens later
in the rendering loop.  Selections hold option labels, embedded as
strings (the schema requested from the model makes options strings). -/
structure QuestionItem where
  question : String
  options : JVal
  correct_indices : List Int
  explanation : String
  choice : Choice
  checked : Bool

/-- Python `(x or "").strip()` applied to an optional field value: absent
or falsy values give `""`; a truthy string is stripped; a truthy non-string
raises `AttributeError` (embedded as `none`). -/
def py_coalesce_strip : Option JVal → Option String
  | none => some ""
  | some v =>
      if v.isTruthy then
        match v with
        | .str s => some s.trim
        | _ => none
      else some ""

/-- Python `item.get("options") or []` (src/app.py line 201): absent or
falsy values are replaced by the empty list, any truthy value is kept
as-is (including non-lists). -/
def py_or_empty_list : Option JVal → JVal
  | none => .arr []
  | some v => if v.isTruthy then v else .arr []

/-- The question record constructed by the generate handler for one raw
element of the `questions` list (src/app.py lines 198-209).  A non-object
element makes the Python `.get` calls raise (embedded as `none`); the
handler wraps the whole construction in `try/except`. -/
def mk_question_item : JVal → Option QuestionItem
  | .obj fs =>
      match py_coalesce_strip (py_get fs "question"),
            py_coalesce_strip (py_get fs "explanation") with
      | some q, some e =>
          some { question := q
                 options := py_or_empty_list (py_get fs "options")
                 correct_indices := normalize_correct_indices
                   (py_get_d fs "correct_indices" (py_get_d fs "correct_index" .null))
                 explanation := e
                 choice := Choice.cnone
                 checked := false }
      | _, _ => none
  | _ => none

/-- The generate handler's loop over the normalized `questions` list. -/
def build_items (qs : List JVal) : Option (List QuestionItem) :=
  qs.mapM mk_question_item

/-- Length of an options value when it is a list (used to state the index
invariant); non-lists have no indexable length. -/
def options_len : JVal → Nat
  | .arr xs => xs.length
  | _ => 0

/-- Python `options.index(v)` (first index of an exact match) embedded as
an `Option`: `none` is the `ValueError` Python raises when the value does
not occur. -/
def py_index (l : List String) (v : String) : Option Nat :=
  match l with
  | [] => none
  | x :: xs => if x = v then some 0 else (py_index xs v).map (· + 1)

/-- The set comprehension of the check-answer handler for multiselect
choices (src/app.py lines 272-276):
`{options.index(val) for val in selected_choice if val in options}`. -/
def multi_user_indices (options sel : List String) : Finset ℤ :=
  ((sel.filter (fun v => options.contains v)).filterMap
    (fun v => (py_index options v).map (fun n => (n : ℤ)))).toFinset

/-- The user's resolved index set (src/app.py lines 271-278).  For a list
choice unmatched labels are filtered out first; for a single label the
unguarded `options.index(selected_choice)` raises `ValueError` when the
label is absent, embedded as `none`.  The `cnone` arm is unreachable in
the handler (the falsiness guard fires first). -/
def resolve_user_indices (options : List String) : Choice → Option (Finset ℤ)
  | .cnone => some ∅
  | .csingle s => (py_index options s).map (fun n => ({(n : ℤ)} : Finset ℤ))
  | .cmulti xs => some (multi_user_indices options xs)

/-- The bounds filter of the check-answer handler (src/app.py lines
280-284) before set collection: the stored indices restricted to valid
positions in `options`. -/
def correct_list (options : List String) (correct_indices : List Int) : List Int :=
  correct_indices.filter (fun i => decide (0 ≤ i) && decide (i < (options.length : ℤ)))

/-- `correct_set` of the check-answer handler (src/app.py lines 280-284):
the valid stored indices collected as a set. -/
def correct_set (options : List String) (correct_indices : List Int) : Finset ℤ :=
  (correct_list options correct_indices).toFinset

/-- Insertion into an ascending list (used to realize Python's
`sorted(...)` executably). -/
def insert_sorted (i : ℤ) : List ℤ → List ℤ
  | [] => [i]
  | x :: xs => if i ≤ x then i :: x :: xs else x :: insert_sorted i xs

/-- Insertion sort, realizing Python's `sorted(...)`. -/
def sort_int (l : List ℤ) : List ℤ :=
  l.foldr insert_sorted []

/-- Distinct elements of a list (first-kept order is irrelevant here, the
result is always sorted afterwards): realizes iterating a Python set. -/
def dedup_int : List ℤ → List ℤ
  | [] => []
  | x :: xs => if x ∈ xs then dedup_int xs else x :: dedup_int xs

/-- The correct-answer text of the failure message (src/app.py lines
289-292): `", ".join(options[i] for i in sorted(correct_set))` — the
matching option labels joined in ascending index order over the distinct
valid indices — or the marker `"inconnue"` when the correct set is
empty. -/
def render_labels (options : List String) (cl : List Int) : String :=
  if cl.toFinset = (∅ : Finset ℤ) then "inconnue"
  else String.intercalate ", " ((sort_int (dedup_int cl)).map (fun i => options.getD i.toNat ""))

/-- The user-visible outcome of the check-answer handler: the
`st.warning("Choisis une option.")`, `st.success("Bonne reponse !")` and
`st.error("Mauvaise reponse. Bonne reponse: ...")` calls. -/
inductive CheckOutcome where
  | noSelection : CheckOutcome
  | correct : CheckOutcome
  | incorrect (labels : String) : CheckOutcome
  deriving DecidableEq

/-- The check-answer handler (src/app.py lines 266-295) as a function of
the question's options, stored `correct_indices` and current choice.
`none` embeds the uncaught `ValueError` of the single-selection branch. -/
def check_answer (options : List String) (correct_indices : List Int)
    (choice : Choice) : Option CheckOutcome :=
  if choice.isFalsy then some .noSelection
  else
    match resolve_user_indices options choice with
    | none => none
    | some user =>
        let cs := correct_set options correct_indices
        if cs.Nonempty ∧ user = cs then some .correct
        else some (.incorrect (render_labels options (correct_list options correct_indices)))

/-- The per-question validity test of the rendering loop (src/app.py lines
236-240), stated positively: a question renders when its text is non-empty
and its options value is a list of at least 2 elements. -/
def is_valid_item (it : QuestionItem) : Bool :=
  !it.question.isEmpty &&
    (match it.options with
     | .arr xs => decide (2 ≤ xs.length)
     | _ => false)

/-- One observable step of the rendering loop: either the
`st.warning("Question {idx} invalide...")` for an invalid record or the
rendering of the question itself, tagged with its 1-based index. -/
inductive RenderEvent where
  | warning (idx : Nat) : RenderEvent
  | rendered (idx : Nat) (item : QuestionItem) : RenderEvent

/-- The rendering loop over `mcq_list` (src/app.py lines 230-244),
`enumerate(..., start=1)`: invalid records produce a warning and are
skipped (`continue`), valid ones are rendered; the loop never modifies the
underlying list. -/
def render_items (idx : Nat) : List QuestionItem → List RenderEvent
  | [] => []
  | it :: rest =>
      (if is_valid_item it then RenderEvent.rendered idx it
       else RenderEvent.warning idx) :: render_items (idx + 1) rest

/-- The widget binding of the rendering step (src/app.py lines 250-264):
the radio / multiselect value is stored into `item["choice"]`; no other
field is assigned. -/
def render_question (item : QuestionItem) (widgetChoice : Choice) : QuestionItem :=
  { item with choice := widgetChoice }

/-- The "Verifier la reponse" button block (src/app.py lines 266-297): when
clicked it runs the grader on the current choice; the block contains no
assignment into the question record (in particular `checked` is never
set). -/
def check_button (item : QuestionItem) (options : List String) (clicked : Bool) :
    QuestionItem × Option CheckOutcome :=
  if clicked then (item, check_answer options item.correct_indices item.choice)
  else (item, none)

/-- Whitespace skipping of the JSON grammar (space, tab, newline,
carriage return). -/
def skip_ws : List Char → List Char
  | [] => []
  | c :: cs =>
      if c = ' ' ∨ c = '\t' ∨ c = '\n' ∨ c = '\r' then skip_ws cs
      else c :: cs

/-- JSON string body after the opening quote: the characters up to the
closing quote plus the remaining input.  Modelled from the spec: part of
the strict decoding done by the standard library's `json.loads`, which is
not in this repository; escape sequences are not modelled (a backslash
fails), and no counterexample or witness below uses them. -/
def parse_string_chars : List Char → Option (List Char × List Char)
  | [] => none
  | c :: cs =>
      if c = '"' then some ([], cs)
      else if c = '\\' then none
      else
        match parse_string_chars cs with
        | some (s, r) => some (c :: s, r)
        | none => none

/-- Leading run of ASCII digits of the input. -/
def take_digits : List Char → List Char × List Char
  | [] => ([], [])
  | c :: cs =>
      if c.isDigit then
        let p := take_digits cs
        (c :: p.1, p.2)
      else ([], c :: cs)

/-- Numeric value of a digit run. -/
def digits_to_nat (ds : List Char) : Nat :=
  ds.foldl (fun n c => 10 * n + (c.toNat - 48)) 0

mutual

/-- One JSON value plus remaining input.  Modelled from the spec: the
strict decoding done by the standard library's `json.loads` is not in this
repository; numbers are modelled as (optionally negated) integers, which
is the only number shape this application consumes. -/
def parse_val : Nat → List Char → Option (JVal × List Char)
  | 0, _ => none
  | fuel + 1, cs =>
      match skip_ws cs with
      | 'n' :: 'u' :: 'l' :: 'l' :: r => some (.null, r)
      | 't' :: 'r' :: 'u' :: 'e' :: r => some (.bool true, r)
      | 'f' :: 'a' :: 'l' :: 's' :: 'e' :: r => some (.bool false, r)
      | '"' :: r =>
          match parse_string_chars r with
          | some (s, r2) => some (.str (String.mk s), r2)
          | none => none
      | '-' :: r =>
          match take_digits r with
          | ([], _) => none
          | (ds, rest) => some (.int (-(digits_to_nat ds : Int)), rest)
      | '[' :: r =>
          match skip_ws r with
          | ']' :: r2 => some (.arr [], r2)
          | r2 =>
              match parse_elems fuel r2 with
              | some (vs, r3) => some (.arr vs, r3)
              | none => none
      | '\x7b' :: r =>
          match skip_ws r with
          | '\x7d' :: r2 => some (.obj [], r2)
          | r2 =>
              match parse_members fuel r2 with
              | some (ms, r3) => some (.obj ms, r3)
              | none => none
      | c :: r =>
          if c.isDigit then
            match take_digits (c :: r) with
            | (ds, rest) => some (.int (digits_to_nat ds), rest)
          else none
      | [] => none

/-- Comma-separated JSON values up to the closing `]`. -/
def parse_elems : Nat → List Char → Option (List JVal × List Char)
  | 0, _ => none
  | fuel + 1, cs =>
      match parse_val fuel cs with
      | none => none
      | some (v, r) =>
          match skip_ws r with
          | ',' :: r2 =>
              match parse_elems fuel r2 with
              | some (vs, r3) => some (v :: vs, r3)
              | none => none
          | ']' :: r2 => some ([v], r2)
          | _ => none

/-- Comma-separated `"key": value` members up to the closing brace. -/
def parse_members : Nat → List Char → Option (List (String × JVal) × List Char)
  | 0, _ => none
  | fuel + 1, cs =>
      match skip_ws cs with
      | '"' :: r =>
          match parse_string_chars r with
          | none => none
          | some (key, r2) =>
              match skip_ws r2 with
              | ':' :: r3 =>
                  match parse_val fuel r3 with
                  | none => none
                  | some (v, r4) =>
                      match skip_ws r4 with
                      | ',' :: r5 =>
                          match parse_members fuel r5 with
                          | some (ms, r6) => some ((String.mk key, v) :: ms, r6)
                          | none => none
                      | '\x7d' :: r5 => some ([(String.mk key, v)], r5)
                      | _ => none
              | _ => none
      | _ => none

end

/-- The strict whole-text decode `json.loads` (src/app.py lines 28 and 36):
one JSON value, possibly surrounded by whitespace, consuming the entire
input.  Modelled from the spec: `json.loads` itself is standard-library
code, not part of this repository. -/
def json_loads (cs : List Char) : Option JVal :=
  match parse_val (2 * cs.length + 2) cs with
  | some (v, rest) => if skip_ws rest = [] then some v else none
  | none => none

/-- Suffix of the input starting at the first occurrence of `t`, `none`
when `t` does not occur. -/
def drop_until (t : Char) : List Char → Option (List Char)
  | [] => none
  | c :: cs => if c = t then some (c :: cs) else drop_until t cs

/-- The span matched by `re.search(r"\x7b.*\x7d", text, flags=re.DOTALL)`
(src/app.py line 32): from the first `\x7b` to the last `\x7d` after it,
greedy and spanning newlines; `none` when no such span exists. -/
def json_span (cs : List Char) : Option (List Char) :=
  match drop_until '\x7b' cs with
  | none => none
  | some suf =>
      match drop_until '\x7d' suf.reverse with
      | none => none
      | some rev => some rev.reverse

/-- `extract_json` (src/app.py lines 26-38): strict decode first, then the
greedy brace span, `none` (Python `None`) when both fail. -/
def extract_json (cs : List Char) : Option JVal :=
  match json_loads cs with
  | some v => some v
  | none =>
      match json_span cs with
      | none => none
      | some span => json_loads span

theorem normalize_questions_is_arr (payload : List (String × JVal)) :
    ∃ xs, py_get (normalize_mcq_payload payload) "questions" = some (JVal.arr xs) := by
  unfold normalize_mcq_payload
  split
  · rename_i xs h
    exact ⟨xs, h⟩
  · split <;> exact ⟨_, rfl⟩

lemma foldl_coerce (xs : List JVal) (acc : List Int) :
    xs.foldl (fun acc item =>
        match item with
        | .int n => acc ++ [n]
        | .bool b => acc ++ [if b then 1 else 0]
        | .str s => if py_isdigit s then acc ++ [py_int_of_digits s] else acc
        | _ => acc) acc
      = acc ++ xs.filterMap coerce_item := by
  induction xs generalizing acc with
  | nil => simp
  | cons x rest ih =>
      cases x <;> simp [List.foldl_cons, ih, coerce_item]
      · rename_i s
        by_cases h : py_isdigit s = true <;>
          simp [h, ih, coerce_item, List.filterMap_cons]

lemma py_index_none_of_not_mem {l : List String} {v : String} (h : v ∉ l) :
    py_index l v = none := by
  induction l with
  | nil => rfl
  | cons x xs ih =>
      simp only [List.mem_cons, not_or] at h
      simp [py_index, Ne.symm h.1, ih h.2]

lemma py_index_lt_length {l : List String} {v : String} {n : Nat}
    (h : py_index l v = some n) : n < l.length := by
  induction l generalizing n with
  | nil => simp [py_index] at h
  | cons x xs ih =>
      rw [py_index] at h
      by_cases hx : x = v
      · rw [if_pos hx] at h
        cases h
        simp
      · rw [if_neg hx] at h
        obtain ⟨m, hm, hmn⟩ := Option.map_eq_some'.mp h
        subst hmn
        have := ih hm
        simp only [List.length_cons]
        omega

lemma drop_until_not_mem {t : Char} {cs : List Char} (h : t ∉ cs) :
    drop_until t cs = none := by
  induction cs with
  | nil => rfl
  | cons c rest ih =>
      simp only [List.mem_cons, not_or] at h
      simp [drop_until, Ne.symm h.1, ih h.2]

lemma drop_until_append {t : Char} {a : List Char} (r : List Char) (h : t ∉ a) :
    drop_until t (a ++ r) = drop_until t r := by
  induction a with
  | nil => rfl
  | cons c rest ih =>
      simp only [List.mem_cons, not_or] at h
      simp [drop_until, Ne.symm h.1, ih h.2]

lemma drop_until_cons_self (t : Char) (r : List Char) :
    drop_until t (t :: r) = some (t :: r) := by
  simp [drop_until]

lemma drop_until_subset {t : Char} {cs suf : List Char}
    (h : drop_until t cs = some suf) : ∀ x ∈ suf, x ∈ cs := by
  induction cs with
  | nil => simp [drop_until] at h
  | cons c rest ih =>
      by_cases hc : c = t
      · rw [hc, drop_until_cons_self] at h
        cases h
        intro x hx
        simpa [hc] using hx
      · simp [drop_until, hc] at h
        intro x hx
        exact List.mem_cons_of_mem _ (ih h x hx)

lemma json_span_none_of_no_open {cs : List Char} (h : '\x7b' ∉ cs) :
    json_span cs = none := by
  simp [json_span, drop_until_not_mem h]

lemma json_span_none_of_no_close {cs : List Char} (h : '\x7d' ∉ cs) :
    json_span cs = none := by
  unfold json_span
  cases hs : drop_until '\x7b' cs with
  | none => rfl
  | some suf =>
      have hsub := drop_until_subset hs
      have : '\x7d' ∉ suf.reverse := by
        intro hmem
        exact h (hsub _ (List.mem_reverse.mp hmem))
      simp [drop_until_not_mem this]

lemma json_span_decomp {a c : List Char} (b : List Char)
    (ha : '\x7b' ∉ a) (hc : '\x7d' ∉ c) :
    json_span (a ++ '\x7b' :: (b ++ '\x7d' :: c)) = some ('\x7b' :: (b ++ ['\x7d'])) := by
  have hrev : ('\x7b' :: (b ++ '\x7d' :: c)).reverse
      = c.reverse ++ '\x7d' :: (b.reverse ++ ['\x7b']) := by
    simp
  have hcrev : '\x7d' ∉ c.reverse := by
    intro hmem
    exact hc (List.mem_reverse.mp hmem)
  unfold json_span
  rw [drop_until_append _ ha, drop_until_cons_self]
  dsimp only
  rw [hrev, drop_until_append _ hcrev, drop_until_cons_self]
  dsimp only
  simp

lemma render_items_length (k : Nat) (items : List QuestionItem) :
    (render_items k items).length = items.length := by
  induction items generalizing k with
  | nil => rfl
  | cons it rest ih => simp [render_items, ih]

lemma render_items_get (items : List QuestionItem) :
    ∀ (k i : Nat) (it : QuestionItem), items[i]? = some it →
      (render_items k items)[i]?
        = some (if is_valid_item it then RenderEvent.rendered (k + i) it
                else RenderEvent.warning (k + i)) := by
  induction items with
  | nil => intro k i it h; simp at h
  | cons hd rest ih =>
      intro k i it h
      cases i with
      | zero =>
          simp at h
          subst h
          simp [render_items]
      | succ j =>
          have h2 : rest[j]? = some it := by simpa using h
          have hj := ih (k + 1) j it h2
          have harith : k + 1 + j = k + (j + 1) := by omega
          simpa [render_items, harith] using hj

/-- Claim C2, counterexample: `normalize_correct_indices` does not produce
a set — the list `[0, "0"]` normalizes to `[0, 0]`, which contains a
duplicate index.  Also, the numeric string `"-1"` is dropped (only
digit-only strings coerce) and a Python boolean coerces as an integer
rather than being rejected. -/
theorem C2_cex :
    normalize_correct_indices (JVal.arr [JVal.int 0, JVal.str "0"]) = [0, 0] ∧
    ¬ (normalize_correct_indices (JVal.arr [JVal.int 0, JVal.str "0"])).Nodup ∧
    normalize_correct_indices (JVal.arr [JVal.str "-1"]) = [] ∧
    normalize_correct_indices (JVal.bool true) = [1] :=
  ⟨rfl, by decide, rfl, rfl⟩

/-- Claim C2 (amended): the coercion of `normalize_correct_indices` — a
bare integer (including Python booleans, which are integers) gives a
one-element list; a sequence gives the list, in encounter order and
possibly with duplicates, of its integer elements and its digit-string
elements coerced to integers, with other elements dropped; a bare
digit-string gives a one-element list; any other shape gives the empty
list.  The result is a list, not a set. -/
theorem C2_coercion (n : Int) (b : Bool) (s : String) (xs : List JVal)
    (fs : List (String × JVal)) :
    normalize_correct_indices (JVal.int n) = [n] ∧
    normalize_correct_indices (JVal.bool b) = [if b then 1 else 0] ∧
    normalize_correct_indices (JVal.str s)
      = (if py_isdigit s then [py_int_of_digits s] else []) ∧
    normalize_correct_indices (JVal.arr xs) = xs.filterMap coerce_item ∧
    normalize_correct_indices JVal.null = [] ∧
    normalize_correct_indices (JVal.obj fs) = [] := by
  refine ⟨rfl, rfl, rfl, ?_, rfl, rfl⟩
  simpa using foldl_coerce xs []

/-- The record of claim C3's counterexample: a two-option question whose
`correct_index` is 5. -/
def c3_record : JVal :=
  JVal.obj [("question", JVal.str "Q"),
            ("options", JVal.arr [JVal.str "A", JVal.str "B"]),
            ("correct_index", JVal.int 5)]

/-- Claim C3, counterexample: normalization performs no bounds check — the
record `{question: "Q", options: ["A","B"], correct_index: 5}` produces a
question whose `correct_indices` is `[5]` although its options list has
length 2, so the claimed invariant 0 ≤ i < len(options) fails on the
produced question. -/
theorem C3_cex :
    (mk_question_item c3_record).map (fun it => it.correct_indices) = some [5] ∧
    (mk_question_item c3_record).map (fun it => options_len it.options) = some 2 ∧
    (mk_question_item c3_record).map
        (fun it => decide (∀ i ∈ it.correct_indices,
          0 ≤ i ∧ i < (options_len it.options : Int)))
      = some false :=
  ⟨rfl, rfl, rfl⟩

/-- Claim C3 (amended): the bounds invariant holds not on the stored
`correct_indices` of a normalized question but on the grading-time
`correct_set` (src/app.py lines 280-284): every index in the set used for
grading is a valid index into that question's options. -/
theorem C3_bounds (options : List String) (cis : List Int) (i : ℤ)
    (h : i ∈ correct_set options cis) :
    0 ≤ i ∧ i < (options.length : ℤ) := by
  simp only [correct_set, correct_list, List.mem_toFinset, List.mem_filter,
    Bool.and_eq_true, decide_eq_true_eq] at h
  exact h.2

/-- Claim C3, witness: index 1 of a stored list `[1, 5]` survives the
grading-time filter for a two-option question and is in bounds. -/
theorem C3_bounds_witness :
    (1 : ℤ) ∈ correct_set ["A", "B"] [1, 5] ∧
    ((0 : ℤ) ≤ 1 ∧ (1 : ℤ) < ((["A", "B"] : List String).length : ℤ)) :=
  ⟨by decide, C3_bounds ["A", "B"] [1, 5] 1 (by decide)⟩

/-- Claim C7: payload shape detection in order — a `questions` field that
is a list makes each element a raw question record; otherwise a payload
with a `question` field is wrapped as the single record; otherwise the
question list is empty. -/
theorem C7_shape (payload : List (String × JVal)) :
    (∀ xs, py_get payload "questions" = some (JVal.arr xs) →
      questions_of (normalize_mcq_payload payload) = xs) ∧
    ((∀ xs, py_get payload "questions" ≠ some (JVal.arr xs)) →
      (py_get payload "question").isSome = true →
      questions_of (normalize_mcq_payload payload) = [JVal.obj payload]) ∧
    ((∀ xs, py_get payload "questions" ≠ some (JVal.arr xs)) →
      py_get payload "question" = none →
      questions_of (normalize_mcq_payload payload) = []) := by
  refine ⟨?_, ?_, ?_⟩
  · intro xs h
    unfold normalize_mcq_payload
    rw [h]
    unfold questions_of
    rw [h]
  · intro hne hq
    unfold normalize_mcq_payload
    cases hg : py_get payload "questions" with
    | none => rw [if_pos hq]; rfl
    | some v =>
        cases v with
        | arr xs => exact absurd hg (hne xs)
        | null => rw [if_pos hq]; rfl
        | bool b => rw [if_pos hq]; rfl
        | int n => rw [if_pos hq]; rfl
        | str s => rw [if_pos hq]; rfl
        | obj fs => rw [if_pos hq]; rfl
  · intro hne hq
    have hq' : ¬ (py_get payload "question").isSome = true := by
      simp [hq]
    unfold normalize_mcq_payload
    cases hg : py_get payload "questions" with
    | none => rw [if_neg hq']; rfl
    | some v =>
        cases v with
        | arr xs => exact absurd hg (hne xs)
        | null => rw [if_neg hq']; rfl
        | bool b => rw [if_neg hq']; rfl
        | int n => rw [if_neg hq']; rfl
        | str s => rw [if_neg hq']; rfl
        | obj fs => rw [if_neg hq']; rfl

/-- Claim C7, witness: the single-question payload `{question: "Q"}` is
wrapped as a one-element question list. -/
theorem C7_shape_witness :
    questions_of (normalize_mcq_payload [("question", JVal.str "Q")])
      = [JVal.obj [("question", JVal.str "Q")]] :=
  (C7_shape [("question", JVal.str "Q")]).2.1
    (fun _ h => Option.noConfusion h) rfl

/-- Claim C9: every question occupies exactly one slot of the rendering
loop's output (nothing is dropped from the underlying list), an invalid
record (empty text, non-list options, or fewer than 2 options) produces
the per-question warning carrying its own 1-based index, and a valid
record is rendered regardless of its siblings. -/
theorem C9_isolation (items : List QuestionItem) :
    (render_items 1 items).length = items.length ∧
    (∀ i it, items[i]? = some it → is_valid_item it = false →
      (render_items 1 items)[i]? = some (RenderEvent.warning (i + 1))) ∧
    (∀ i it, items[i]? = some it → is_valid_item it = true →
      (render_items 1 items)[i]? = some (RenderEvent.rendered (i + 1) it)) := by
  refine ⟨render_items_length 1 items, ?_, ?_⟩
  · intro i it h hv
    have := render_items_get items 1 i it h
    rw [hv] at this
    simpa [Nat.add_comm 1 i] using this
  · intro i it h hv
    have := render_items_get items 1 i it h
    rw [hv] at this
    simpa [Nat.add_comm 1 i] using this

/-- An invalid question record (empty text) used in witnesses. -/
def bad_item : QuestionItem :=
  { question := ""
    options := JVal.arr [JVal.str "A", JVal.str "B"]
    correct_indices := []
    explanation := ""
    choice := Choice.cnone
    checked := false }

/-- A valid question record used in witnesses. -/
def good_item : QuestionItem :=
  { question := "Q"
    options := JVal.arr [JVal.str "A", JVal.str "B"]
    correct_indices := [0]
    explanation := ""
    choice := Choice.cnone
    checked := false }

/-- Claim C9, witness: in a pair of an invalid and a valid record, the
invalid one yields the warning for index 1 while its sibling still renders
as question 2. -/
theorem C9_isolation_witness :
    (render_items 1 [bad_item, good_item])[0]? = some (RenderEvent.warning 1) ∧
    (render_items 1 [bad_item, good_item])[1]?
      = some (RenderEvent.rendered 2 good_item) :=
  ⟨(C9_isolation [bad_item, good_item]).2.1 0 bad_item rfl rfl,
   (C9_isolation [bad_item, good_item]).2.2 1 good_item rfl rfl⟩

/-- Claim C1, counterexample: the verdict mapping is not total over all
selections — a single selected label absent from `options` (possible as
stale widget state) makes the handler raise `ValueError` from the
unguarded `options.index(...)` instead of producing the `Incorrect`
verdict the claim requires for that case. -/
theorem C1_cex :
    check_answer ["A", "B"] [0] (Choice.csingle "X") = none ∧
    Choice.isFalsy (Choice.csingle "X") = false := by
  exact ⟨rfl, rfl⟩

/-- Claim C1 (amended): on every selection for which label resolution
completes (always for empty/unset and for list selections; for a single
label, when it occurs in `options`) the verdict is: empty/unset selection
gives NoSelection; otherwise Correct exactly when the valid correct-index
set is non-empty and equals the user's resolved index set, and Incorrect
in every other such case. -/
theorem C1_grader (options : List String) (cis : List Int) (choice : Choice) :
    (choice.isFalsy = true →
      check_answer options cis choice = some CheckOutcome.noSelection) ∧
    (∀ user, choice.isFalsy = false →
      resolve_user_indices options choice = some user →
      check_answer options cis choice
        = some (if (correct_set options cis).Nonempty ∧ user = correct_set options cis
                then CheckOutcome.correct
                else CheckOutcome.incorrect
                  (render_labels options (correct_list options cis)))) := by
  constructor
  · intro h
    simp [check_answer, h]
  · intro user h hr
    simp only [check_answer, h, Bool.false_eq_true, if_false, hr]
    split <;> simp_all

/-- Claim C1, witness: with correct index 1 among options `["A","B"]`,
selecting `"B"` resolves to index set `{1}` and the amended verdict rule
yields Correct. -/
theorem C1_grader_witness :
    check_answer ["A", "B"] [1] (Choice.csingle "B")
      = some (if (correct_set ["A", "B"] [1]).Nonempty ∧
                  ({(1 : ℤ)} : Finset ℤ) = correct_set ["A", "B"] [1]
              then CheckOutcome.correct
              else CheckOutcome.incorrect
                (render_labels ["A", "B"] (correct_list ["A", "B"] [1]))) :=
  (C1_grader ["A", "B"] [1] (Choice.csingle "B")).2 {(1 : ℤ)} rfl (by decide)

/-- Claim C4, counterexample: with an empty correct set, a non-empty
selection does not always yield Incorrect — a single selected label absent
from `options` makes the handler raise instead (the `ValueError` of the
unguarded `options.index(...)`), so grading can crash before reaching the
empty comparison. -/
theorem C4_cex :
    check_answer ["A", "B"] ([] : List Int) (Choice.csingle "X") = none ∧
    Choice.isFalsy (Choice.csingle "X") = false ∧
    correct_set ["A", "B"] ([] : List Int) = (∅ : Finset ℤ) := by
  refine ⟨rfl, rfl, by decide⟩

/-- Claim C4 (amended): whenever the correct-index set resolves to empty,
grading any non-empty selection that resolves yields Incorrect with the
correct answer rendered as the marker `"inconnue"` (answer unknown) rather
than as an empty list; list selections always resolve, so for them the
empty comparison never crashes. -/
theorem C4_unknown (options : List String) (cis : List Int) (choice : Choice)
    (hempty : correct_set options cis = (∅ : Finset ℤ))
    (hsel : choice.isFalsy = false) :
    (∀ v, check_answer options cis choice = some v →
      v = CheckOutcome.incorrect "inconnue") ∧
    (∀ xs, choice = Choice.cmulti xs →
      check_answer options cis choice
        = some (CheckOutcome.incorrect "inconnue")) ∧
    render_labels options (correct_list options cis) = "inconnue" := by
  have hlabels : render_labels options (correct_list options cis) = "inconnue" := by
    rw [render_labels, if_pos]
    exact hempty
  have hmain : ∀ user, resolve_user_indices options choice = some user →
      check_answer options cis choice
        = some (CheckOutcome.incorrect "inconnue") := by
    intro user hr
    have hnon : ¬ ((correct_set options cis).Nonempty ∧ user = correct_set options cis) := by
      rintro ⟨hne, -⟩
      rw [hempty] at hne
      exact Finset.not_nonempty_empty hne
    simp only [check_answer, hsel, Bool.false_eq_true, if_false, hr]
    rw [if_neg hnon, hlabels]
  refine ⟨?_, ?_, hlabels⟩
  · intro v hv
    cases hr : resolve_user_indices options choice with
    | none => simp [check_answer, hsel, hr] at hv
    | some user =>
        rw [hmain user hr] at hv
        exact (Option.some_injective _ hv).symm
  · intro xs hx
    subst hx
    exact hmain _ rfl

/-- Claim C4, witness: options `["A","B"]` with no stored correct index
grade the selection `["A"]` as Incorrect with the answer-unknown marker. -/
theorem C4_unknown_witness :
    check_answer ["A", "B"] ([] : List Int) (Choice.cmulti ["A"])
      = some (CheckOutcome.incorrect "inconnue") :=
  (C4_unknown ["A", "B"] ([] : List Int) (Choice.cmulti ["A"])
    (by decide) rfl).2.1 ["A"] rfl

/-- Claim C10, counterexample: a single selected label absent from
`options` is not ignored — the unguarded `options.index(selected_choice)`
(src/app.py line 278) raises `ValueError`, embedded here as `none`. -/
theorem C10_cex :
    check_answer ["A", "B"] [0] (Choice.csingle "C") = none ∧
    Choice.isFalsy (Choice.csingle "C") = false := by
  exact ⟨rfl, rfl⟩

/-- Claim C10 (amended): for list (multiselect) selections, each selected
label is resolved by exact first-match lookup, labels not present in
`options` are filtered out without any fault, and the resolved index set
contains only in-range indices of matching labels; a single (radio)
selected label is resolved by exact match but, when absent from `options`,
resolution raises instead of ignoring it. -/
theorem C10_resolution (options xs : List String) (s : String) (cis : List Int) :
    (∀ i ∈ multi_user_indices options xs, ∃ v n, v ∈ xs ∧
      options.contains v = true ∧ py_index options v = some n ∧
      i = (n : ℤ) ∧ n < options.length) ∧
    resolve_user_indices options (Choice.cmulti xs)
      = some (multi_user_indices options xs) ∧
    (s ∉ options → resolve_user_indices options (Choice.csingle s) = none) ∧
    (s ∉ options → s.isEmpty = false →
      check_answer options cis (Choice.csingle s) = none) := by
  refine ⟨?_, rfl, ?_, ?_⟩
  · intro i hi
    obtain ⟨v, hv, hf⟩ := List.mem_filterMap.mp (List.mem_toFinset.mp hi)
    have h2 := List.mem_filter.mp hv
    cases hpy : py_index options v with
    | none =>
        rw [hpy] at hf
        exact absurd hf (by simp)
    | some m =>
        rw [hpy] at hf
        have him : ((m : ℤ)) = i := Option.some.inj hf
        exact ⟨v, m, h2.1, h2.2, hpy, him.symm, py_index_lt_length hpy⟩
  · intro hs
    simp [resolve_user_indices, py_index_none_of_not_mem hs]
  · intro hs hne
    simp [check_answer, Choice.isFalsy, hne, resolve_user_indices,
      py_index_none_of_not_mem hs]

/-- Claim C10, witness: the single label `"C"` is absent from `["A","B"]`
and its resolution raises (`none`) rather than being ignored. -/
theorem C10_resolution_witness :
    resolve_user_indices ["A", "B"] (Choice.csingle "C") = none :=
  (C10_resolution ["A", "B"] [] "C" []).2.2.1 (by decide)

/-- Claim C5, counterexample: for text with no brace pair the extractor
does not necessarily report failure — the strict whole-text decode can
succeed on a bare JSON scalar such as `42`, and its value is returned. -/
theorem C5_cex :
    extract_json ['4', '2'] = some (JVal.int 42) ∧
    '\x7b' ∉ ['4', '2'] ∧ '\x7d' ∉ ['4', '2'] :=
  ⟨rfl, by decide, by decide⟩

/-- Claim C5 (amended): the extractor returns the strict whole-text decode
whenever it succeeds (even for brace-less text); when the strict decode
fails it decodes exactly the substring from the first opening brace to the
last closing brace (greedy, spanning newlines); when the strict decode
fails and no brace pair exists it reports failure, and it is a total
function (no unhandled fault). -/
theorem C5_extractor :
    (∀ cs v, json_loads cs = some v → extract_json cs = some v) ∧
    (∀ cs, json_loads cs = none → ('\x7b' ∉ cs ∨ '\x7d' ∉ cs) →
      extract_json cs = none) ∧
    (∀ a b c, '\x7b' ∉ a → '\x7d' ∉ c →
      json_loads (a ++ '\x7b' :: (b ++ '\x7d' :: c)) = none →
      extract_json (a ++ '\x7b' :: (b ++ '\x7d' :: c))
        = json_loads ('\x7b' :: (b ++ ['\x7d']))) := by
  refine ⟨?_, ?_, ?_⟩
  · intro cs v h
    unfold extract_json
    rw [h]
  · intro cs h hbr
    unfold extract_json
    rw [h]
    rcases hbr with hb | hb
    · rw [json_span_none_of_no_open hb]
    · rw [json_span_none_of_no_close hb]
  · intro a b c ha hc h
    unfold extract_json
    rw [h, json_span_decomp b ha hc]

/-- Claim C5, witness: for the noisy text `x{"a":1}` the strict decode
fails and the extractor decodes exactly the brace span `{"a":1}`. -/
theorem C5_extractor_witness :
    extract_json (['x'] ++ '\x7b' :: (['"', 'a', '"', ':', '1'] ++ '\x7d' :: []))
      = json_loads ('\x7b' :: (['"', 'a', '"', ':', '1'] ++ ['\x7d'])) :=
  C5_extractor.2.2 ['x'] ['"', 'a', '"', ':', '1'] []
    (by decide) (by decide) rfl

/-- Claim C6, counterexample: surrounding noise is not arbitrary — when
the leading noise itself contains an opening brace, as in `{ {"a":1}`, the
greedy span covers the noise too, both decodes fail, and the embedded
well-formed object `{"a":1}` is not recovered. -/
theorem C6_cex :
    extract_json ('\x7b' :: ' ' :: ['\x7b', '"', 'a', '"', ':', '1', '\x7d']) = none ∧
    json_loads ['\x7b', '"', 'a', '"', ':', '1', '\x7d']
      = some (JVal.obj [("a", JVal.int 1)]) ∧
    ('\x7b' :: ' ' :: ['\x7b', '"', 'a', '"', ':', '1', '\x7d'])
      = ['\x7b', ' '] ++ ['\x7b', '"', 'a', '"', ':', '1', '\x7d'] ++ [] :=
  ⟨rfl, rfl, rfl⟩

/-- Claim C6 (amended): for any text containing a well-formed JSON object,
if the strict whole-text decode fails, the noise before the object
contains no opening brace and the noise after it contains no closing
brace, the extractor recovers exactly that object. -/
theorem C6_recovery (a b c : List Char) (v : JVal)
    (ha : '\x7b' ∉ a) (hc : '\x7d' ∉ c)
    (hfail : json_loads (a ++ '\x7b' :: (b ++ '\x7d' :: c)) = none)
    (hobj : json_loads ('\x7b' :: (b ++ ['\x7d'])) = some v) :
    extract_json (a ++ '\x7b' :: (b ++ '\x7d' :: c)) = some v := by
  unfold extract_json
  rw [hfail, json_span_decomp b ha hc]
  exact hobj

/-- Claim C6, witness: the object `{"a":1}` is recovered from the noisy
text `y{"a":1}`. -/
theorem C6_recovery_witness :
    extract_json (['y'] ++ '\x7b' :: (['"', 'a', '"', ':', '1'] ++ '\x7d' :: []))
      = some (JVal.obj [("a", JVal.int 1)]) :=
  C6_recovery ['y'] ['"', 'a', '"', ':', '1'] [] (JVal.obj [("a", JVal.int 1)])
    (by decide) (by decide) rfl rfl

/-- A concrete question record (two options, correct index 0, unchecked)
used by the claim C8 theorems. -/
def c8_item : QuestionItem :=
  { question := "Q"
    options := JVal.arr [JVal.str "A", JVal.str "B"]
    correct_indices := [0]
    explanation := ""
    choice := Choice.cnone
    checked := false }

/-- Claim C8, counterexample: checking an answer does not mark the
question's `checked` flag true — the handler never assigns it, so after a
click on a freshly generated question (flag `false`) the flag is still
`false`. -/
theorem C8_cex :
    c8_item.checked = false ∧
    (check_button (render_question c8_item (Choice.csingle "A")) ["A", "B"] true).fst.checked
      = false :=
  ⟨rfl, rfl⟩

/-- Claim C8 (amended): a check-answer click invokes the grader on the
question's stored correct indices and current selection and mutates
nothing of the question record at all — `checked` included, which stays at
its initial `false`; the only user-mutable field is the selection, written
by the widget binding before the click. -/
theorem C8_frame (item : QuestionItem) (options : List String)
    (wc : Choice) (clicked : Bool) :
    (check_button (render_question item wc) options clicked).fst
      = render_question item wc ∧
    (render_question item wc).question = item.question ∧
    (render_question item wc).options = item.options ∧
    (render_question item wc).correct_indices = item.correct_indices ∧
    (render_question item wc).explanation = item.explanation ∧
    (render_question item wc).checked = item.checked ∧
    (clicked = true →
      (check_button (render_question item wc) options clicked).snd
        = check_answer options item.correct_indices wc) := by
  cases clicked <;>
    simp [check_button, render_question]

/-- Claim C8, witness: clicking check on the concrete record runs the
grader on its stored correct indices and the current selection. -/
theorem C8_frame_witness :
    (check_button (render_question c8_item (Choice.csingle "A")) ["A", "B"] true).snd
      = check_answer ["A", "B"] [0] (Choice.csingle "A") :=
  (C8_frame c8_item ["A", "B"] (Choice.csingle "A") true).2.2.2.2.2.2 rfl

end QuizAna
